import Mathlib

/-!
Verification of the Label Quality Assurance subsystem
(`src/pipeline/labeler_validator.py` and `src/pipeline/quality_control.py`).

The Python modules are shallowly embedded: floats are modelled as `ℚ`
(respectively `ℝ` where square roots appear), Python dicts as association
lists in insertion order, and a Python function that can raise an exception
returns `Except String _`.  The external classifier (`LabelerAgent`) is a
parameter: one run of the consensus loop is modelled by an oracle
`runResults : ℕ → Option Prediction`, where `none` is a failed call
(an abstention).  The sklearn TF-IDF vectorizer and cosine similarity are
not part of the repository; they are modelled from the spec where needed
(see `cosineSim`).
-/

/-- Embeds `ValidationConfig` (labeler_validator.py lines 26-49).
Pydantic `Field` bounds are not part of the value; floats are `ℚ`. -/
structure ValidationConfig where
  enable_consensus : Bool
  consensus_runs : Nat
  consensus_threshold : ℚ
  temperatures : List ℚ
  enable_rules : Bool
  rule_confidence_boost : ℚ
  min_confidence : ℚ
  high_confidence : ℚ
  enable_ensemble : Bool
  strict_mode : Bool
deriving DecidableEq

/-- The default field values of `ValidationConfig`. -/
def defaultValidationConfig : ValidationConfig where
  enable_consensus := true
  consensus_runs := 3
  consensus_threshold := 67/100
  temperatures := [3/10, 7/10, 1]
  enable_rules := true
  rule_confidence_boost := 1/10
  min_confidence := 1/2
  high_confidence := 8/10
  enable_ensemble := false
  strict_mode := true

/-- One classifier result: the `{"domain": ..., "confidence": ...}` entry
appended to `all_predictions` (lines 124-128 and 141-146). -/
structure Prediction where
  domain : String
  confidence : ℚ
deriving DecidableEq

/-- The distinct issue strings `validate_classification` can append
(lines 192-195, 205-207, 218-220), as constructors carrying the data
interpolated into the corresponding f-string. -/
inductive VIssue where
  | consensusNotAchieved (count total : Nat) (ratioVal threshold : ℚ)
  | lowConfidence (conf minConf : ℚ)
  | ruleConflict (llmDomain ruleDomain : String)
deriving DecidableEq

/-- Embeds `ValidationResult` (lines 52-73). -/
structure ValidationResult where
  text : String
  final_domain : String
  final_confidence : ℚ
  consensus_votes : List (String × Nat)
  consensus_achieved : Bool
  consensus_ratio : ℚ
  rule_match : Bool
  rule_matched_domain : Option String
  is_valid : Bool
  validation_issues : List VIssue
  all_predictions : List Prediction
deriving DecidableEq

/-- `s.lower()` on the text before keyword matching (line 261). -/
def lowerStr (s : String) : String := s.toLower

/-- Whether `needle` occurs as a contiguous sublist of `hay`, starting at the
front: helper for Python's substring operator `in`. -/
def prefixMatch : List Char → List Char → Bool
  | [], _ => true
  | _ :: _, [] => false
  | a :: as, b :: bs => a = b && prefixMatch as bs

/-- Python's `needle in hay` substring test on strings. -/
def occursIn : List Char → List Char → Bool
  | n, [] => n.isEmpty
  | n, c :: t => prefixMatch n (c :: t) || occursIn n t

/-- `keyword in text_lower` (line 269). -/
def strContains (hay needle : String) : Bool := occursIn needle.data hay.data

/-- The per-domain keyword counter of `_check_rules` (lines 266-271): each
keyword adds 1 to the score when it occurs in the lower-cased text. -/
def keywordScore (textLower : String) (kws : List String) : Nat :=
  kws.foldl (fun score kw => if strContains textLower kw then score + 1 else score) 0

/-- `domain_scores` (lines 263-273): the keyword table rows scored against the
lower-cased text, keeping only domains with a nonzero score, in table order. -/
def domainScores (table : List (String × List String)) (textLower : String) :
    List (String × Nat) :=
  (table.map (fun p => (p.1, keywordScore textLower p.2))).filter (fun p => decide (0 < p.2))

/-- The comparison used by `sorted(domain_scores.items(), key=lambda x: x[1],
reverse=True)` (line 277): descending by score. -/
def countGE (a b : String × Nat) : Prop := b.2 ≤ a.2

instance : DecidableRel countGE := fun a b => Nat.decLe b.2 a.2

instance : IsTotal (String × Nat) countGE := ⟨fun a b => Nat.le_total b.2 a.2⟩

instance : IsTrans (String × Nat) countGE := ⟨fun _ _ _ h1 h2 => Nat.le_trans h2 h1⟩

/-- `sorted(..., key=lambda x: x[1], reverse=True)` (line 277): a stable sort,
descending by score. -/
def sortScoresDesc (l : List (String × Nat)) : List (String × Nat) :=
  List.insertionSort countGE l

/-- Embeds `LabelerValidator._check_rules` (lines 250-289): keyword scores,
the single-candidate shortcut, and the decisive-dominance test
`top_score >= 2 and top_score > second_score * 2`. The keyword table
(`KEYWORDS` from taxonomy.py) is passed as a parameter. -/
def checkRules (cfg : ValidationConfig) (table : List (String × List String))
    (text : String) : Option String :=
  if !cfg.enable_rules then none
  else
    match sortScoresDesc (domainScores table (lowerStr text)) with
    | [] => none
    | [top] => some top.1
    | top :: second :: _ =>
      if 2 ≤ top.2 && second.2 * 2 < top.2 then some top.1 else none

/-- `Counter([...])` in insertion order: add one vote for `d`. -/
def bumpVote (d : String) : List (String × Nat) → List (String × Nat)
  | [] => [(d, 1)]
  | (e, n) :: rest => if e = d then (e, n + 1) :: rest else (e, n) :: bumpVote d rest

/-- `Counter([p["domain"] for p in all_predictions])` (line 153): a tally in
first-encounter order. -/
def countVotes (l : List String) : List (String × Nat) :=
  l.foldl (fun acc d => bumpVote d acc) []

/-- `most_common(1)[0]` on the tally (line 157): the first entry with the
highest count, `none` on an empty tally. -/
def mostCommon : List (String × Nat) → Option (String × Nat)
  | [] => none
  | p :: rest => some (rest.foldl (fun best q => if best.2 < q.2 then q else best) p)

/-- The list of temperatures the consensus loop iterates over
(`self.config.temperatures[:self.config.consensus_runs]`, line 134); each
element corresponds to exactly one `labeler_agent.classify_one` invocation. -/
def consensusInvocations (cfg : ValidationConfig) : List ℚ :=
  cfg.temperatures.take cfg.consensus_runs

/-- Embeds `LabelerValidator.validate_classification` (lines 102-248).
`runResults i` is the outcome of the `i`-th `classify_one` call of the
consensus loop (`none` = the call raised and run `i` is skipped, line 148);
`initial` is `initial_result`; `hasAgent` is the truthiness of
`labeler_agent` on line 131.  The mutable-statistics updates are elided.
Reading the local variable `total_votes` where it was never assigned
(the empty-tally branch of lines 156-168 followed by line 193) is an
`Except.error`. -/
def validateClassification (cfg : ValidationConfig) (table : List (String × List String))
    (text : String) (hasAgent : Bool) (runResults : Nat → Option Prediction)
    (initial : Option Prediction) : Except String ValidationResult :=
  let initialPreds : List Prediction := match initial with | some p => [p] | none => []
  let temps : List ℚ := if cfg.enable_consensus && hasAgent then consensusInvocations cfg else []
  let runPreds : List Prediction := (List.range temps.length).filterMap runResults
  let allPreds : List Prediction := initialPreds ++ runPreds
  let domainVotes : List (String × Nat) := countVotes (allPreds.map (fun p => p.domain))
  let tally : Option (String × Nat) := mostCommon domainVotes
  let consensusDomain : String := match tally with | some t => t.1 | none => "oos"
  let consensusCount : Nat := match tally with | some t => t.2 | none => 0
  let totalVotes : Option Nat := match tally with | some _ => some allPreds.length | none => none
  let consensusRatio : ℚ := match tally with
    | some t => if 0 < allPreds.length then (t.2 : ℚ) / (allPreds.length : ℚ) else 0
    | none => 0
  let consensusAchieved : Bool := match tally with
    | some _ => decide (cfg.consensus_threshold ≤ consensusRatio)
    | none => false
  let ruleDomain : Option String := checkRules cfg table text
  let ruleMatch : Option Bool := match ruleDomain with
    | some d => some (d == consensusDomain)
    | none => none
  let confs : List ℚ := allPreds.map (fun p => p.confidence)
  let avgConfidence0 : ℚ := if confs.isEmpty then 0 else confs.sum / (confs.length : ℚ)
  let avgConfidence : ℚ :=
    if ruleMatch == some true && cfg.enable_rules
    then min 1 (avgConfidence0 + cfg.rule_confidence_boost) else avgConfidence0
  let needConsensusIssue : Bool := cfg.enable_consensus && !consensusAchieved
  if needConsensusIssue && totalVotes.isNone then
    Except.error "UnboundLocalError: total_votes"
  else
    let issues0 : List VIssue :=
      if needConsensusIssue then
        [VIssue.consensusNotAchieved consensusCount (totalVotes.getD 0)
          consensusRatio cfg.consensus_threshold]
      else []
    let valid0 : Bool := !(needConsensusIssue && cfg.strict_mode)
    let lowConf : Bool := decide (avgConfidence < cfg.min_confidence)
    let issues1 : List VIssue :=
      issues0 ++ (if lowConf then [VIssue.lowConfidence avgConfidence cfg.min_confidence] else [])
    let valid1 : Bool := valid0 && !(lowConf && cfg.strict_mode)
    let conflict : Bool := match ruleDomain with
      | some rd => decide (rd ≠ consensusDomain)
      | none => false
    let issues2 : List VIssue :=
      issues1 ++ (if conflict then
        [VIssue.ruleConflict consensusDomain (ruleDomain.getD "")] else [])
    let finalDomain : String :=
      if conflict && (cfg.strict_mode && cfg.enable_rules) then ruleDomain.getD consensusDomain
      else consensusDomain
    Except.ok
      { text := text
        final_domain := finalDomain
        final_confidence := avgConfidence
        consensus_votes := domainVotes
        consensus_achieved := consensusAchieved
        consensus_ratio := consensusRatio
        rule_match := ruleMatch.getD false
        rule_matched_domain := ruleDomain
        is_valid := valid1
        validation_issues := issues2
        all_predictions := allPreds }

/-- A value stored for one confidence bucket of the calibration table:
either the accumulating observation list (`[1, 0, ...]`) or the scalar mean
that `update_calibration` line 622 replaces it with. -/
inductive BucketVal where
  | obsList : List Nat → BucketVal
  | accMean : ℚ → BucketVal
deriving DecidableEq

/-- One domain's buckets, keyed by the integer `int(confidence * 10)`: the
key `k` stands for the persisted string `"{k/10:.1f}-{(k+1)/10:.1f}"`
built on line 609, whose parsed endpoints are `k/10` and `(k+1)/10`. -/
abbrev CalibBuckets := List (Int × BucketVal)

/-- `ConfidenceCalibrator.calibration_table`: domain → buckets, in insertion
order. -/
abbrev CalibTable := List (String × CalibBuckets)

/-- Python `int()`: truncation toward zero on a rational. -/
def truncQ (q : ℚ) : Int := if 0 ≤ q then ⌊q⌋ else ⌈q⌉

/-- `int(predicted_confidence * 10)`: the bucket key of a confidence. -/
def bucketIdx (c : ℚ) : Int := truncQ (c * 10)

/-- The bucket scan of `calibrate_confidence` (lines 583-591): parse each
stored key into `[k/10, (k+1)/10)`, return the stored estimate on the first
range containing `raw`; Python's `float(actual_acc)` on a still-unreduced
observation list would raise. -/
def scanBuckets : CalibBuckets → ℚ → Except String ℚ
  | [], raw => Except.ok raw
  | (k, v) :: rest, raw =>
    if (k : ℚ) / 10 ≤ raw ∧ raw < ((k : ℚ) + 1) / 10 then
      match v with
      | BucketVal.accMean a => Except.ok a
      | BucketVal.obsList _ => Except.error "TypeError: float() argument is a list"
    else scanBuckets rest raw

/-- Embeds `ConfidenceCalibrator.calibrate_confidence` (lines 558-591). -/
def calibrateConfidence (table : CalibTable) (domain : String) (raw : ℚ) :
    Except String ℚ :=
  match table.lookup domain with
  | none => Except.ok raw
  | some buckets => scanBuckets buckets raw

/-- Dict update `table[domain][bucket] = v` at the bucket level: replace in
place, or append a new key. -/
def setBucketVal : CalibBuckets → Int → BucketVal → CalibBuckets
  | [], k, v => [(k, v)]
  | (k', v') :: rest, k, v =>
    if k' = k then (k', v) :: rest else (k', v') :: setBucketVal rest k v

/-- Dict update `table[domain] = buckets`: replace in place, or append. -/
def setDomainBuckets : CalibTable → String → CalibBuckets → CalibTable
  | [], d, bs => [(d, bs)]
  | (d', bs') :: rest, d, bs =>
    if d' = d then (d', bs) :: rest else (d', bs') :: setDomainBuckets rest d bs

/-- Embeds `ConfidenceCalibrator.update_calibration` (lines 593-625): compute
the bucket key, default the missing domain/bucket to an empty observation
list, append the boolean outcome, then REPLACE the list by its mean
(line 622).  When the stored value is already a collapsed scalar (any second
update of the same bucket), Python's `list.append` on a float raises
`AttributeError`, modelled as `Except.error`.  The best-effort persistence
(`_save_calibration`) is elided. -/
def updateCalibration (table : CalibTable) (domain : String) (conf : ℚ)
    (wasCorrect : Bool) : Except String CalibTable :=
  let key : Int := bucketIdx conf
  let buckets : CalibBuckets := (table.lookup domain).getD []
  match (buckets.lookup key).getD (BucketVal.obsList []) with
  | BucketVal.accMean _ =>
      Except.error "AttributeError: float object has no attribute append"
  | BucketVal.obsList l =>
      let observations : List Nat := l ++ [if wasCorrect then 1 else 0]
      let newVal : BucketVal :=
        BucketVal.accMean ((observations.sum : ℚ) / (observations.length : ℚ))
      Except.ok (setDomainBuckets table domain (setBucketVal buckets key newVal))

/-- C1: when every classifier invocation fails and no initial result is
supplied, `validate_classification` does NOT return the documented
`(out-of-scope, 0.0, not achieved)` outcome: formatting the
"consensus not achieved" issue reads the local `total_votes`, which the
empty-tally branch never assigned, so the call raises
(`UnboundLocalError`), modelled here as `Except.error`. -/
theorem validate_all_abstention_error (cfg : ValidationConfig)
    (table : List (String × List String)) (text : String) (hasAgent : Bool)
    (runResults : Nat → Option Prediction)
    (hcons : cfg.enable_consensus = true)
    (hfail : ∀ i, runResults i = none) :
    validateClassification cfg table text hasAgent runResults none =
      Except.error "UnboundLocalError: total_votes" := by
  have hrun : ∀ n, (List.range n).filterMap runResults = [] := fun n =>
    List.filterMap_eq_nil_iff.mpr (fun a _ => hfail a)
  simp [validateClassification, hrun, countVotes, mostCommon, hcons]

/-- C1, witness: the default configuration with all three consensus runs
failing hits the `UnboundLocalError` branch. -/
theorem validate_all_abstention_error_witness :
    validateClassification defaultValidationConfig [] "any text" true
      (fun _ => none) none = Except.error "UnboundLocalError: total_votes" :=
  validate_all_abstention_error defaultValidationConfig [] "any text" true
    (fun _ => none) rfl (fun _ => rfl)

/-- C2: two `update_calibration` calls for the same domain and the same
confidence bucket do not both succeed.  The first call stores the bucket's
mean correctly (one observation `[1]` gives accuracy `1`), but it replaces
the observation list with that scalar, so the second call's
`table[domain][bucket].append(...)` raises `AttributeError` instead of
recording the outcome and recomputing the mean. -/
instance : DecidableEq (Except String CalibTable) := fun a b =>
  match a, b with
  | Except.ok x, Except.ok y => decidable_of_iff (x = y) (by simp)
  | Except.error e, Except.error e' => decidable_of_iff (e = e') (by simp)
  | Except.ok _, Except.error _ => isFalse (by simp)
  | Except.error _, Except.ok _ => isFalse (by simp)

theorem updateCalibration_second_update_raises :
    updateCalibration [] "house" (3/4) true =
      Except.ok [("house", [(7, BucketVal.accMean 1)])] ∧
    (updateCalibration [] "house" (3/4) true).bind
      (fun t => updateCalibration t "house" (3/4) false) =
      Except.error "AttributeError: float object has no attribute append" := by
  have hb : bucketIdx (3/4) = 7 := by
    rw [bucketIdx, truncQ, if_pos (by norm_num)]
    rw [Int.floor_eq_iff]
    constructor <;> norm_num
  have h1 : updateCalibration [] "house" (3/4) true =
      Except.ok [("house", [(7, BucketVal.accMean 1)])] := by
    simp [updateCalibration, hb, setDomainBuckets, setBucketVal]
  refine ⟨h1, ?_⟩
  rw [h1]
  show updateCalibration [("house", [(7, BucketVal.accMean 1)])] "house" (3/4) false = _
  simp [updateCalibration, hb, List.lookup]

/-- A `ValidationConfig` with `consensus_runs = 5` (allowed by the pydantic
bound `le=5`) and the default three temperatures. -/
def cfgRuns5 : ValidationConfig := { defaultValidationConfig with consensus_runs := 5 }

/-- C3, counterexample: with `consensus_runs = 5` (within `[2..5]`) and the
default non-empty temperature list of length 3, the consensus loop iterates
over `temperatures[:5]`, i.e. only 3 times — not `runs` times as claimed:
the temperature list is truncated, never cycled up to `runs`. -/
theorem consensus_runs_truncation_cex :
    2 ≤ cfgRuns5.consensus_runs ∧ cfgRuns5.consensus_runs ≤ 5 ∧
    cfgRuns5.temperatures ≠ [] ∧
    (consensusInvocations cfgRuns5).length ≠ cfgRuns5.consensus_runs := by
  decide

/-- C3, amended: for `runs ∈ [2..5]` and a non-empty temperature list, the
consensus loop invokes the classifier exactly
`min runs (temperatures.length)` times (the list is truncated to `runs`,
not cycled), and run `i` iterates over `temperatures[i]`. -/
theorem consensusInvocations_truncated (cfg : ValidationConfig) (i : Nat)
    (h2 : 2 ≤ cfg.consensus_runs) (h5 : cfg.consensus_runs ≤ 5)
    (hne : cfg.temperatures ≠ [])
    (hi : i < (consensusInvocations cfg).length) :
    (consensusInvocations cfg).length = min cfg.consensus_runs cfg.temperatures.length ∧
    (consensusInvocations cfg).getD i 0 = cfg.temperatures.getD i 0 := by
  refine ⟨by simp [consensusInvocations], ?_⟩
  have hi2 : i < cfg.temperatures.length := by
    simp only [consensusInvocations, List.length_take] at hi
    omega
  rw [List.getD_eq_getElem _ _ hi, List.getD_eq_getElem _ _ hi2]
  simp [consensusInvocations, List.getElem_take]

/-- C3, witness for the amended statement: the default configuration
(3 runs, 3 temperatures) at run index 0. -/
theorem consensusInvocations_truncated_witness :
    (consensusInvocations defaultValidationConfig).length =
      min defaultValidationConfig.consensus_runs
        defaultValidationConfig.temperatures.length ∧
    (consensusInvocations defaultValidationConfig).getD 0 0 =
      defaultValidationConfig.temperatures.getD 0 0 :=
  consensusInvocations_truncated defaultValidationConfig 0 (by decide) (by decide)
    (by decide) (by decide)

/-- C9: when the calibration table holds no estimate for the width-0.1
bucket containing `raw_confidence` for the requested domain — in particular
for an unseen domain or an empty table — `calibrate_confidence` returns the
raw confidence unchanged. -/
theorem calibrate_cold_start (table : CalibTable) (domain : String) (raw : ℚ)
    (h : ∀ v : BucketVal, (⌊raw * 10⌋, v) ∉ (table.lookup domain).getD []) :
    calibrateConfidence table domain raw = Except.ok raw := by
  unfold calibrateConfidence
  cases htab : table.lookup domain with
  | none => rfl
  | some buckets =>
    rw [htab] at h
    simp only [Option.getD_some] at h
    show scanBuckets buckets raw = Except.ok raw
    clear htab
    induction buckets with
    | nil => rfl
    | cons kv rest ih =>
      obtain ⟨k, v⟩ := kv
      have hk : ¬((k : ℚ) / 10 ≤ raw ∧ raw < ((k : ℚ) + 1) / 10) := by
        rintro ⟨h1, h2⟩
        have hfloor : ⌊raw * 10⌋ = k := by
          rw [Int.floor_eq_iff]
          constructor
          · have := (div_le_iff₀ (by norm_num : (0:ℚ) < 10)).mp h1
            exact_mod_cast this
          · have := (lt_div_iff₀ (by norm_num : (0:ℚ) < 10)).mp h2
            linarith
        exact h v (by rw [hfloor]; exact List.mem_cons_self _ _)
      simp only [scanBuckets, if_neg hk]
      exact ih (fun v' hv' => h v' (List.mem_cons_of_mem _ hv'))

/-- C9, witness: `calibrate("house", 0.82)` on the empty table returns
`0.82` unchanged. -/
theorem calibrate_cold_start_witness :
    calibrateConfidence [] "house" (82/100) = Except.ok (82/100) :=
  calibrate_cold_start [] "house" (82/100) (fun v hv => by simp at hv)

/-- C4: when the three consensus runs return the successful votes
`[house, house, payments]` (with any confidences, no initial result), the
vote tally is `{house: 2, payments: 1}`, the consensus ratio is `2/3`
(displayed as 0.667), and consensus is achieved exactly when the configured
threshold is at most `2/3`. -/
theorem consensus_tally_house_payments (cfg : ValidationConfig)
    (table : List (String × List String)) (text : String) (q1 q2 q3 : ℚ)
    (hcons : cfg.enable_consensus = true) (hruns : cfg.consensus_runs = 3)
    (htemps : 3 ≤ cfg.temperatures.length) :
    ∃ r, validateClassification cfg table text true
        (fun i => if i = 0 then some ⟨"house", q1⟩ else if i = 1 then some ⟨"house", q2⟩
          else if i = 2 then some ⟨"payments", q3⟩ else none) none = Except.ok r ∧
      r.consensus_votes = [("house", 2), ("payments", 1)] ∧
      r.consensus_ratio = 2/3 ∧
      (r.consensus_achieved = true ↔ cfg.consensus_threshold ≤ 2/3) := by
  have hlen : (consensusInvocations cfg).length = 3 := by
    simp only [consensusInvocations, List.length_take]
    omega
  have hrange : List.range (consensusInvocations cfg).length = [0, 1, 2] := by
    rw [hlen]
    rfl
  have hne1 : "house" ≠ "payments" := by decide
  simp only [validateClassification, hcons, Bool.and_self, if_true, Bool.true_and,
    Bool.and_true, hrange, List.filterMap_cons, List.filterMap_nil]
  norm_num [countVotes, bumpVote, mostCommon, hne1]

/-- C4, witness: the default configuration (3 runs, threshold 0.67,
non-empty temperatures) with votes `[house, house, payments]`. -/
theorem consensus_tally_house_payments_witness :
    ∃ r, validateClassification defaultValidationConfig [] "text" true
        (fun i => if i = 0 then some ⟨"house", 9/10⟩ else if i = 1 then some ⟨"house", 8/10⟩
          else if i = 2 then some ⟨"payments", 7/10⟩ else none) none = Except.ok r ∧
      r.consensus_votes = [("house", 2), ("payments", 1)] ∧
      r.consensus_ratio = 2/3 ∧
      (r.consensus_achieved = true ↔ defaultValidationConfig.consensus_threshold ≤ 2/3) :=
  consensus_tally_house_payments defaultValidationConfig [] "text" (9/10) (8/10) (7/10)
    rfl rfl (by decide)

/-- The largest keyword score among the scored domains other than `d`. -/
def maxOtherScore (scores : List (String × Nat)) (d : String) : Nat :=
  ((scores.filter (fun p => decide (p.1 ≠ d))).map (fun p => p.2)).foldr max 0

theorem le_foldrMax {l : List Nat} {a : Nat} (h : a ∈ l) : a ≤ l.foldr max 0 := by
  induction l with
  | nil => cases h
  | cons b t ih =>
    rcases List.mem_cons.mp h with rfl | h2
    · exact Nat.le_max_left _ _
    · exact Nat.le_trans (ih h2) (Nat.le_max_right _ _)

theorem foldrMax_le {l : List Nat} {b : Nat} (h : ∀ a ∈ l, a ≤ b) : l.foldr max 0 ≤ b := by
  induction l with
  | nil => exact Nat.zero_le _
  | cons c t ih =>
    simp only [List.foldr_cons]
    exact Nat.max_le.mpr ⟨h c (List.mem_cons_self _ _),
      ih (fun a ha => h a (List.mem_cons_of_mem _ ha))⟩

theorem foldrMax_perm {l1 l2 : List Nat} (h : l1.Perm l2) :
    l1.foldr max 0 = l2.foldr max 0 := by
  induction h with
  | nil => rfl
  | cons a _ ih => simp only [List.foldr_cons, ih]
  | swap a b l => simp only [List.foldr_cons]; exact Nat.max_left_comm _ _ _
  | trans _ _ ih1 ih2 => exact ih1.trans ih2

theorem keywordScore_foldl_le (t : String) : ∀ (kws : List String) (init : Nat),
    kws.foldl (fun score kw => if strContains t kw then score + 1 else score) init ≤
      init + kws.length := by
  intro kws
  induction kws with
  | nil => intro init; simp
  | cons k ks ih =>
    intro init
    simp only [List.foldl_cons, List.length_cons]
    by_cases h : strContains t k
    · rw [if_pos h]
      have := ih (init + 1)
      omega
    · rw [if_neg h]
      have := ih init
      omega

/-- C7: with rules enabled and distinct keyword-table domains, `_check_rules`
returns domain `d` exactly when either `d` is the only domain with a nonzero
keyword score, or `d` carries the strictly highest score `c` with `c ≥ 2` and
`c > 2 ×` the best score of any other domain; and every keyword contributes
at most 1 to its domain's score (a score never exceeds the keyword count). -/
theorem checkRules_characterization (cfg : ValidationConfig)
    (table : List (String × List String)) (text : String) (d : String)
    (kws : List String)
    (hen : cfg.enable_rules = true)
    (hkeys : (table.map (fun p => p.1)).Nodup) :
    (checkRules cfg table text = some d ↔
      (∃ c, domainScores table (lowerStr text) = [(d, c)]) ∨
      (∃ c, (d, c) ∈ domainScores table (lowerStr text) ∧ 2 ≤ c ∧
        (∀ p ∈ domainScores table (lowerStr text), p.2 ≤ c) ∧
        2 * maxOtherScore (domainScores table (lowerStr text)) d < c)) ∧
    keywordScore (lowerStr text) kws ≤ kws.length := by
  refine ⟨?_, by simpa using keywordScore_foldl_le (lowerStr text) kws 0⟩
  set scores := domainScores table (lowerStr text) with hscores
  have hnd : (scores.map (fun p => p.1)).Nodup := by
    have h1 : scores.Sublist
        (table.map (fun p => (p.1, keywordScore (lowerStr text) p.2))) :=
      List.filter_sublist _
    have h2 := h1.map (fun p => p.1)
    rw [List.map_map] at h2
    exact h2.nodup (by simpa [Function.comp] using hkeys)
  have hperm : (sortScoresDesc scores).Perm scores := List.perm_insertionSort _ _
  have hsorted : List.Sorted countGE (sortScoresDesc scores) :=
    List.sorted_insertionSort _ _
  unfold checkRules
  rw [hen]
  simp only [Bool.not_true, Bool.false_eq_true, if_false]
  rcases hs : sortScoresDesc scores with _ | ⟨top, stail⟩
  · rw [hs] at hperm
    have hnil : scores = [] := hperm.symm.eq_nil
    simp [hnil]
  · rcases stail with _ | ⟨second, rest⟩
    · rw [hs] at hperm
      have hsc : scores = [top] := List.perm_singleton.mp hperm.symm
      change some top.1 = some d ↔ _
      constructor
      · intro h
        left
        injection h with hd
        exact ⟨top.2, by rw [hsc, ← hd]⟩
      · rintro (⟨c, hc⟩ | ⟨c, hmem, -, -, -⟩)
        · rw [hsc] at hc
          simp only [List.cons.injEq, and_true] at hc
          rw [hc]
        · rw [hsc, List.mem_singleton] at hmem
          rw [← hmem]
    · rw [hs] at hperm hsorted
      have hndS : ((top :: second :: rest).map (fun p => p.1)).Nodup :=
        ((hperm.map (fun p => p.1)).nodup_iff).mpr hnd
      have htopmem : top ∈ scores := hperm.subset (List.mem_cons_self _ _)
      have hsecmem : second ∈ scores := hperm.subset (by simp)
      have hle : ∀ p ∈ scores, p.2 ≤ top.2 := by
        intro p hp
        have hp' : p ∈ top :: second :: rest := hperm.mem_iff.mpr hp
        rcases List.mem_cons.mp hp' with rfl | hp2
        · exact Nat.le_refl _
        · exact List.rel_of_sorted_cons hsorted p hp2
      have hrestle : ∀ a ∈ rest.map (fun p => p.2), a ≤ second.2 := by
        intro a ha
        obtain ⟨p, hp, rfl⟩ := List.mem_map.mp ha
        exact List.rel_of_sorted_cons hsorted.of_cons p hp
      have hne2 : top.1 ∉ (second :: rest).map (fun p => p.1) := by
        have := hndS
        simp only [List.map_cons, List.nodup_cons] at this
        simpa using this.1
      have hfil : (top :: second :: rest).filter (fun p => decide (p.1 ≠ top.1)) =
          second :: rest := by
        rw [List.filter_cons]
        rw [if_neg (by simp)]
        apply List.filter_eq_self.mpr
        intro p hp
        simp only [ne_eq, decide_eq_true_eq]
        intro heq
        exact hne2 (by rw [← heq]; exact List.mem_map_of_mem _ hp)
      have hmo : maxOtherScore scores top.1 = second.2 := by
        unfold maxOtherScore
        have hp2 : ((scores.filter (fun p => decide (p.1 ≠ top.1))).map
            (fun p => p.2)).Perm ((second :: rest).map (fun p => p.2)) := by
          refine List.Perm.map _ ?_
          have h' := hperm.filter (fun p => decide (p.1 ≠ top.1))
          rw [hfil] at h'
          exact h'.symm
        rw [foldrMax_perm hp2]
        simp only [List.map_cons, List.foldr_cons]
        exact Nat.max_eq_left (foldrMax_le hrestle)
      change (if (decide (2 ≤ top.2) && decide (second.2 * 2 < top.2)) = true
        then some top.1 else none) = some d ↔ _
      constructor
      · intro h
        by_cases hc : (decide (2 ≤ top.2) && decide (second.2 * 2 < top.2)) = true
        · rw [if_pos hc] at h
          simp only [Bool.and_eq_true, decide_eq_true_eq] at hc
          obtain ⟨h1, h2⟩ := hc
          injection h with hd
          subst hd
          right
          refine ⟨top.2, ?_, h1, hle, ?_⟩
          · simpa using htopmem
          · rw [hmo]; omega
        · rw [if_neg hc] at h
          exact absurd h (by simp)
      · rintro (⟨c, hc⟩ | ⟨c, hmem, h2c, hmax, hdom⟩)
        · have hlen := hperm.length_eq
          rw [hc] at hlen
          simp at hlen
        · have htop2 : top.2 = c :=
            Nat.le_antisymm (hmax top htopmem) (by simpa using hle (d, c) hmem)
          have htop1 : top.1 = d := by
            by_contra hne
            have hmemf : top ∈ scores.filter (fun p => decide (p.1 ≠ d)) :=
              List.mem_filter.mpr ⟨htopmem, by simpa using hne⟩
            have hbound : top.2 ≤ maxOtherScore scores d :=
              le_foldrMax (List.mem_map_of_mem _ hmemf)
            omega
          have hsec1 : second.1 ≠ top.1 := by
            intro he
            exact hne2 (by rw [← he]; simp)
          have hsecle : second.2 ≤ maxOtherScore scores d := by
            apply le_foldrMax
            apply List.mem_map_of_mem
            exact List.mem_filter.mpr ⟨hsecmem, by simp [htop1 ▸ hsec1]⟩
          rw [if_pos (by simp only [Bool.and_eq_true, decide_eq_true_eq]; omega)]
          rw [htop1]

/-- C7, witness: a two-domain keyword table where exactly one domain scores
nonzero, so the rule heuristic returns it. -/
theorem checkRules_characterization_witness :
    (checkRules defaultValidationConfig [("house", ["rent"]), ("pay", ["card"])]
        "rent rent" = some "house" ↔
      (∃ c, domainScores [("house", ["rent"]), ("pay", ["card"])]
          (lowerStr "rent rent") = [("house", c)]) ∨
      (∃ c, ("house", c) ∈ domainScores [("house", ["rent"]), ("pay", ["card"])]
          (lowerStr "rent rent") ∧ 2 ≤ c ∧
        (∀ p ∈ domainScores [("house", ["rent"]), ("pay", ["card"])]
          (lowerStr "rent rent"), p.2 ≤ c) ∧
        2 * maxOtherScore (domainScores [("house", ["rent"]), ("pay", ["card"])]
          (lowerStr "rent rent")) "house" < c)) ∧
    keywordScore (lowerStr "rent rent") ["rent"] ≤ ["rent"].length :=
  checkRules_characterization defaultValidationConfig
    [("house", ["rent"]), ("pay", ["card"])] "rent rent" "house" ["rent"]
    rfl (by decide)

/-- The inner loop of `levenshtein_distance` (quality_control.py lines
115-120): walk the remaining characters of `s2` together with the remaining
previous DP row, carrying the last value appended to the current row;
`insertions = previous_row[j+1] + 1` (the head of the remaining tail,
always present when the row has `len(s2)+1` entries as in the source),
`deletions = current_row[j] + 1`, `substitutions = previous_row[j] +
(c1 != c2)`. -/
def levRow (c1 : Char) : List Char → List Nat → Nat → List Nat
  | c2 :: rest, p0 :: ptail, left =>
    let cell := min (ptail.headD 0 + 1) (min (left + 1) (p0 + (if c1 = c2 then 0 else 1)))
    cell :: levRow c1 rest ptail cell
  | _, _, _ => []

/-- The outer loop of `levenshtein_distance` (lines 113-121): one DP row per
character of `s1`, each row starting with `i + 1`. -/
def levLoop (l2 : List Char) : List Char → List Nat → Nat → List Nat
  | [], prev, _ => prev
  | c1 :: rest, prev, i => levLoop l2 rest ((i + 1) :: levRow c1 l2 prev (i + 1)) (i + 1)

/-- `levenshtein_distance` after the argument swap: the `len(s2) == 0`
shortcut (lines 108-109), then the DP with `previous_row = range(len(s2)+1)`
returning `previous_row[-1]` (lines 111-123). -/
def levCore (l1 l2 : List Char) : Nat :=
  if l2.length = 0 then l1.length
  else ((levLoop l2 l1 (List.range (l2.length + 1)) 0).getLast?).getD 0

/-- Embeds `levenshtein_distance` (lines 94-123): the shorter string becomes
the second argument (lines 105-106), then the row DP runs. -/
def levenshteinDistance (s1 s2 : String) : Nat :=
  if s1.length < s2.length then levCore s2.data s1.data else levCore s1.data s2.data

/-- Embeds `normalized_levenshtein` (lines 126-141), values in `ℚ`. -/
def normalizedLevenshtein (s1 s2 : String) : ℚ :=
  if s1.length = 0 ∧ s2.length = 0 then 0
  else if max s1.length s2.length = 0 then 0
  else (levenshteinDistance s1 s2 : ℚ) / (max s1.length s2.length : ℚ)

theorem map_range_succ_shift (h : Nat → Nat) (n : Nat) :
    (List.range (n + 1)).map h = h 0 :: (List.range n).map (fun t => h (t + 1)) := by
  rw [List.range_succ_eq_map, List.map_cons, List.map_map]
  rfl

theorem levRow_dist (c1 : Char) : ∀ (suf : List Char) (i j0 : Nat),
    (∀ (t : Nat) (h : t < suf.length), i = j0 + t → c1 = suf.get ⟨t, h⟩) →
    levRow c1 suf ((List.range (suf.length + 1)).map (fun t => Nat.dist i (j0 + t)))
        (Nat.dist (i + 1) j0) =
      (List.range suf.length).map (fun t => Nat.dist (i + 1) (j0 + 1 + t)) := by
  intro suf
  induction suf with
  | nil => intro i j0 _; rfl
  | cons c2 rest ih =>
    intro i j0 hdiag
    simp only [List.length_cons]
    rw [map_range_succ_shift (fun t => Nat.dist i (j0 + t)) (rest.length + 1)]
    have htail : (List.range (rest.length + 1)).map (fun t => Nat.dist i (j0 + (t + 1))) =
        (List.range (rest.length + 1)).map (fun t => Nat.dist i (j0 + 1 + t)) := by
      apply List.map_congr_left
      intro t _
      congr 1
      omega
    rw [htail]
    rw [levRow]
    have hhead : ((List.range (rest.length + 1)).map
        (fun t => Nat.dist i (j0 + 1 + t))).headD 0 = Nat.dist i (j0 + 1) := by
      rw [map_range_succ_shift]
      simp
    rw [hhead]
    simp only [Nat.add_zero]
    have hcell : min (Nat.dist i (j0 + 1) + 1) (min (Nat.dist (i + 1) j0 + 1)
        (Nat.dist i j0 + (if c1 = c2 then 0 else 1))) = Nat.dist (i + 1) (j0 + 1) := by
      by_cases hij : i = j0
      · have hc2 : c1 = c2 := hdiag 0 (by simp) (by omega)
        rw [if_pos hc2]
        subst hij
        simp only [Nat.dist]
        omega
      · have hcost : (if c1 = c2 then 0 else 1) ≤ 1 := by split <;> omega
        simp only [Nat.dist] at *
        omega
    rw [hcell]
    have hdiag' : ∀ (t : Nat) (h : t < rest.length), i = j0 + 1 + t →
        c1 = rest.get ⟨t, h⟩ := by
      intro t h he
      have h' : t + 1 < (c2 :: rest).length := by simp; omega
      have := hdiag (t + 1) h' (by omega)
      simpa using this
    rw [ih i (j0 + 1) hdiag']
    rw [map_range_succ_shift (fun t => Nat.dist (i + 1) (j0 + 1 + t)) rest.length]
    congr 1
    apply List.map_congr_left
    intro t _
    congr 1
    omega

theorem levLoop_self (s : List Char) : ∀ (l1 : List Char) (k : Nat),
    l1 = s.drop k → k ≤ s.length →
    levLoop s l1 ((List.range (s.length + 1)).map (fun j => Nat.dist k j)) k =
      (List.range (s.length + 1)).map (fun j => Nat.dist s.length j) := by
  intro l1
  induction l1 with
  | nil =>
    intro k hdrop hk
    have hlen := congrArg List.length hdrop
    simp only [List.length_nil, List.length_drop] at hlen
    have hkeq : k = s.length := by omega
    subst hkeq
    rfl
  | cons c1 rest ih =>
    intro k hdrop hk
    have hlen := congrArg List.length hdrop
    simp only [List.length_cons, List.length_drop] at hlen
    have hklt : k < s.length := by omega
    rw [List.drop_eq_getElem_cons hklt] at hdrop
    have hc1 : c1 = s[k] := by
      injection hdrop.symm with h1 _
      exact h1.symm
    have hrest : rest = s.drop (k + 1) := by
      injection hdrop.symm with _ h2
      exact h2.symm
    rw [levLoop]
    have hprev : (List.range (s.length + 1)).map (fun j => Nat.dist k j) =
        (List.range (s.length + 1)).map (fun t => Nat.dist k (0 + t)) := by
      apply List.map_congr_left
      intro t _
      rw [Nat.zero_add]
    have hleft : k + 1 = Nat.dist (k + 1) 0 := by
      simp [Nat.dist]
    have hdiag : ∀ (t : Nat) (h : t < s.length), k = 0 + t → c1 = s.get ⟨t, h⟩ := by
      intro t h he
      have htk : t = k := by omega
      subst htk
      rw [hc1]
      rfl
    have hrow := levRow_dist c1 s k 0 hdiag
    rw [← hleft] at hrow
    rw [hprev, hrow]
    have hnext : (k + 1) :: (List.range s.length).map
        (fun t => Nat.dist (k + 1) (0 + 1 + t)) =
        (List.range (s.length + 1)).map (fun j => Nat.dist (k + 1) j) := by
      rw [map_range_succ_shift (fun j => Nat.dist (k + 1) j) s.length]
      rw [← hleft]
      congr 1
      apply List.map_congr_left
      intro t _
      congr 1
      omega
    rw [hnext]
    exact ih (k + 1) hrest (by omega)

theorem levCore_self (l : List Char) : levCore l l = 0 := by
  rcases l with _ | ⟨c, t⟩
  · rfl
  · unfold levCore
    rw [if_neg (by simp)]
    have h0 : (List.range ((c :: t).length + 1)).map (fun j => Nat.dist 0 j) =
        List.range ((c :: t).length + 1) := by
      have : ∀ j, Nat.dist 0 j = j := fun j => by simp [Nat.dist]
      simp [this]
    rw [← h0]
    rw [levLoop_self (c :: t) (c :: t) 0 (by simp) (by simp)]
    rw [List.range_succ, List.map_append]
    simp [Nat.dist_self]

/-- The DP returns 0 on two equal strings. -/
theorem levenshtein_self (s : String) : levenshteinDistance s s = 0 := by
  unfold levenshteinDistance
  rw [if_neg (lt_irrefl _)]
  exact levCore_self s.data

/-- Modelled from the spec: tokenisation for the "term-weighted vectors"
of §4.3 — the sklearn `TfidfVectorizer` is external to the repository, so
terms are modelled as whitespace-separated words. -/
def splitWords : List Char → List (List Char)
  | [] => [[]]
  | c :: rest =>
    let ws := splitWords rest
    if c = ' ' then [] :: ws
    else match ws with
      | [] => [[c]]
      | w :: ws' => (c :: w) :: ws'

/-- The terms of a text under the modelled tokenisation. -/
def tokens (s : String) : List (List Char) := splitWords s.data

/-- The term-count vector entry of text `s` at term `tok`. -/
def tokenCount (s : String) (tok : List Char) : Nat := (tokens s).count tok

/-- Modelled from the spec: the inner product of the two texts' term-count
vectors (only terms of `a` can contribute). -/
def dotTexts (a b : String) : ℚ :=
  ((tokens a).dedup.map (fun tok => (tokenCount a tok : ℚ) * (tokenCount b tok : ℚ))).sum

/-- Modelled from the spec (§4.3 and glossary): "Semantic similarity: cosine
similarity between weighted term vectors of two texts"; the sklearn
vectorizer and `cosine_similarity` are not repository code. -/
noncomputable def cosineSim (a b : String) : ℝ :=
  (dotTexts a b : ℝ) / (Real.sqrt (dotTexts a a : ℝ) * Real.sqrt (dotTexts b b : ℝ))

theorem splitWords_ne_nil : ∀ l : List Char, splitWords l ≠ []
  | [] => by simp [splitWords]
  | c :: rest => by
    have ih := splitWords_ne_nil rest
    rw [splitWords]
    rcases h : splitWords rest with _ | ⟨w, ws⟩
    · exact absurd h ih
    · by_cases hc : c = ' ' <;> simp [hc, h]

theorem dotTexts_self_pos (a : String) : 0 < dotTexts a a := by
  unfold dotTexts
  obtain ⟨w, ws, hw⟩ : ∃ w ws, tokens a = w :: ws := by
    rcases h : tokens a with _ | ⟨w, ws⟩
    · exact absurd h (splitWords_ne_nil a.data)
    · exact ⟨w, ws, rfl⟩
  have hwmem : w ∈ (tokens a).dedup := List.mem_dedup.mpr (by rw [hw]; simp)
  have hcount : 0 < tokenCount a w := by
    apply List.count_pos_iff.mpr
    rw [hw]
    simp
  have hterm : (1 : ℚ) ≤ (tokenCount a w : ℚ) * (tokenCount a w : ℚ) := by
    have h1 : (1 : ℚ) ≤ (tokenCount a w : ℚ) := by exact_mod_cast hcount
    nlinarith
  have hnonneg : ∀ x ∈ (tokens a).dedup.map
      (fun tok => (tokenCount a tok : ℚ) * (tokenCount a tok : ℚ)), 0 ≤ x := by
    intro x hx
    obtain ⟨tok, _, rfl⟩ := List.mem_map.mp hx
    positivity
  have hsum := List.single_le_sum hnonneg _ (List.mem_map_of_mem
    (fun tok => (tokenCount a tok : ℚ) * (tokenCount a tok : ℚ)) hwmem)
  have hsum' : (tokenCount a w : ℚ) * (tokenCount a w : ℚ) ≤
      ((tokens a).dedup.map
        (fun tok => (tokenCount a tok : ℚ) * (tokenCount a tok : ℚ))).sum := hsum
  linarith

theorem cosineSim_self (a : String) : cosineSim a a = 1 := by
  unfold cosineSim
  have hpos : (0 : ℝ) < (dotTexts a a : ℝ) := by exact_mod_cast dotTexts_self_pos a
  rw [Real.mul_self_sqrt (le_of_lt hpos)]
  exact div_self (ne_of_gt hpos)

/-- Embeds `QualityControlConfig` (quality_control.py lines 49-91); cosine
thresholds in `ℝ`, Levenshtein thresholds as in the source. -/
structure QualityControlConfig where
  min_cosine_similarity : ℝ
  max_cosine_similarity : ℝ
  max_levenshtein_ratio : ℚ
  min_levenshtein_changes : Nat
  validate_existing_labels : Bool
  relabel_synthetic : Bool
  strict_mode : Bool

/-- The default field values of `QualityControlConfig`. -/
noncomputable def defaultQCConfig : QualityControlConfig where
  min_cosine_similarity := 3/10
  max_cosine_similarity := 95/100
  max_levenshtein_ratio := 8/10
  min_levenshtein_changes := 3
  validate_existing_labels := true
  relabel_synthetic := true
  strict_mode := false

/-- The four distinct issue strings of `compute_similarity` (lines 220-238),
as constructors carrying the interpolated data. -/
inductive QIssue where
  | cosineTooHigh (sim maxSim : ℝ)
  | cosineTooLow (sim minSim : ℝ)
  | tooFewChanges (dist minChanges : Nat)
  | tooManyChanges (ratioVal maxRatio : ℚ)

/-- Embeds `QualityMetrics` (lines 25-33). -/
structure QualityMetrics where
  cosine_similarity : ℝ
  levenshtein_distance : Nat
  levenshtein_ratio : ℚ
  is_valid : Bool
  issues : List QIssue

/-- Embeds `QualityControl.compute_similarity` (lines 175-246).  The cosine
similarity comes from the spec-modelled `cosineSim` (the sklearn TF-IDF
pipeline of lines 193-210 is external to the repository); on this total
model the degenerate `0.5` fallback of lines 208-210 is unreachable, and
the optional reference corpus only conditions the external vectorizer, so
it does not appear.  Both Levenshtein values are taken on the lower-cased
texts (lines 213-214). -/
noncomputable def computeSimilarity (cfg : QualityControlConfig) (text1 text2 : String) :
    QualityMetrics :=
  let cosSim : ℝ := cosineSim text1 text2
  let levDist : Nat := levenshteinDistance (lowerStr text1) (lowerStr text2)
  let levRat : ℚ := normalizedLevenshtein (lowerStr text1) (lowerStr text2)
  let highB : Bool := decide (cfg.max_cosine_similarity < cosSim)
  let lowB : Bool := decide (cosSim < cfg.min_cosine_similarity)
  let fewB : Bool := decide (levDist < cfg.min_levenshtein_changes)
  let manyB : Bool := decide (cfg.max_levenshtein_ratio < levRat)
  { cosine_similarity := cosSim
    levenshtein_distance := levDist
    levenshtein_ratio := levRat
    is_valid := !highB && !lowB && !fewB && !manyB
    issues :=
      (if highB then [QIssue.cosineTooHigh cosSim cfg.max_cosine_similarity] else []) ++
      (if lowB then [QIssue.cosineTooLow cosSim cfg.min_cosine_similarity] else []) ++
      (if fewB then [QIssue.tooFewChanges levDist cfg.min_levenshtein_changes] else []) ++
      (if manyB then [QIssue.tooManyChanges levRat cfg.max_levenshtein_ratio] else []) }

theorem normalizedLevenshtein_self (s : String) : normalizedLevenshtein s s = 0 := by
  unfold normalizedLevenshtein
  split
  · rfl
  · split
    · rfl
    · rw [levenshtein_self]
      simp

/-- C6: the similarity report is valid exactly when the semantic similarity
lies in `[min, max]`, the edit distance is at least the minimum, and the
edit ratio is at most the maximum (each violated condition appending its own
issue); and two identical non-empty strings under the default configuration
are invalid with exactly the two issues "similarity too high" and "too few
character changes". -/
theorem computeSimilarity_validity (cfg : QualityControlConfig)
    (t1 t2 s : String) (hs : s ≠ "") :
    ((computeSimilarity cfg t1 t2).is_valid = true ↔
      (cfg.min_cosine_similarity ≤ (computeSimilarity cfg t1 t2).cosine_similarity ∧
       (computeSimilarity cfg t1 t2).cosine_similarity ≤ cfg.max_cosine_similarity ∧
       cfg.min_levenshtein_changes ≤ (computeSimilarity cfg t1 t2).levenshtein_distance ∧
       (computeSimilarity cfg t1 t2).levenshtein_ratio ≤ cfg.max_levenshtein_ratio)) ∧
    ((computeSimilarity defaultQCConfig s s).is_valid = false ∧
     (computeSimilarity defaultQCConfig s s).issues =
       [QIssue.cosineTooHigh 1 (95/100), QIssue.tooFewChanges 0 3]) := by
  constructor
  · simp only [computeSimilarity, Bool.and_eq_true, Bool.not_eq_true',
      decide_eq_false_iff_not, not_lt]
    tauto
  · have hcos := cosineSim_self s
    have hlev : levenshteinDistance (lowerStr s) (lowerStr s) = 0 := levenshtein_self _
    have hrat : normalizedLevenshtein (lowerStr s) (lowerStr s) = 0 :=
      normalizedLevenshtein_self _
    have hhighB : decide (defaultQCConfig.max_cosine_similarity < cosineSim s s) = true := by
      rw [hcos, decide_eq_true_eq]
      show (95/100 : ℝ) < 1
      norm_num
    have hlowB : decide (cosineSim s s < defaultQCConfig.min_cosine_similarity) = false := by
      rw [hcos, decide_eq_false_iff_not]
      show ¬((1 : ℝ) < 3/10)
      norm_num
    have hfewB : decide (levenshteinDistance (lowerStr s) (lowerStr s) <
        defaultQCConfig.min_levenshtein_changes) = true := by
      rw [hlev, decide_eq_true_eq]
      show 0 < 3
      norm_num
    have hmanyB : decide (defaultQCConfig.max_levenshtein_ratio <
        normalizedLevenshtein (lowerStr s) (lowerStr s)) = false := by
      rw [hrat, decide_eq_false_iff_not]
      show ¬((8/10 : ℚ) < 0)
      norm_num
    constructor
    · simp [computeSimilarity, hhighB, hlowB, hfewB, hmanyB]
    · have e1 : (95/100 : ℝ) < 1 := by norm_num
      have e2 : ¬((1 : ℝ) < 3/10) := by norm_num
      have e3 : ¬((8/10 : ℚ) < 0) := by norm_num
      simp [computeSimilarity, hhighB, hlowB, hfewB, hmanyB, hcos, hlev, hrat,
        defaultQCConfig, e1, e2, e3]

/-- C6, witness: the spec's identical-strings example under the default
configuration. -/
theorem computeSimilarity_validity_witness :
    ((computeSimilarity defaultQCConfig "передать показания счетчика"
        "передать показания счетчика").is_valid = true ↔
      (defaultQCConfig.min_cosine_similarity ≤ (computeSimilarity defaultQCConfig
        "передать показания счетчика" "передать показания счетчика").cosine_similarity ∧
       (computeSimilarity defaultQCConfig "передать показания счетчика"
        "передать показания счетчика").cosine_similarity ≤
          defaultQCConfig.max_cosine_similarity ∧
       defaultQCConfig.min_levenshtein_changes ≤ (computeSimilarity defaultQCConfig
        "передать показания счетчика" "передать показания счетчика").levenshtein_distance ∧
       (computeSimilarity defaultQCConfig "передать показания счетчика"
        "передать показания счетчика").levenshtein_ratio ≤
          defaultQCConfig.max_levenshtein_ratio)) ∧
    ((computeSimilarity defaultQCConfig "передать показания счетчика"
        "передать показания счетчика").is_valid = false ∧
     (computeSimilarity defaultQCConfig "передать показания счетчика"
        "передать показания счетчика").issues =
       [QIssue.cosineTooHigh 1 (95/100), QIssue.tooFewChanges 0 3]) :=
  computeSimilarity_validity defaultQCConfig "передать показания счетчика"
    "передать показания счетчика" "передать показания счетчика" (by decide)

/-- An element of the `items` lists of quality_control.py: the fields read
by `detect_duplicates` and `compute_dataset_quality_score`; `none` models a
missing dict key. -/
structure QCItem where
  text : String
  domain_id : Option String
  label : Option String
  confidence : Option ℝ

/-- The pairwise similarity-matrix entry `similarities[i, j]` (line 453). -/
noncomputable def simAt (texts : List String) (i j : Nat) : ℝ :=
  cosineSim (texts.getD i "") (texts.getD j "")

/-- Embeds `QualityControl.detect_duplicates` (lines 420-464): fewer than
two texts give `[]`; otherwise every pair `i < j` whose similarity is at
least the threshold is emitted in loop order (lines 451-455).  The
similarity matrix comes from the spec-modelled `cosineSim` (sklearn is
external to the repository); on this total model the `except` fallback of
lines 462-464 is unreachable. -/
noncomputable def detectDuplicates (items : List QCItem) (threshold : ℝ) :
    List (Nat × Nat × ℝ) :=
  let texts := items.map (fun it => it.text)
  if texts.length < 2 then []
  else
    (List.range texts.length).flatMap (fun i =>
      (List.range' (i + 1) (texts.length - (i + 1))).filterMap (fun j =>
        if threshold ≤ simAt texts i j then some (i, j, simAt texts i j) else none))

/-- The three-text corpus of the spec's duplicate-detection example. -/
def dupExampleItems : List QCItem :=
  [⟨"a", none, none, none⟩, ⟨"a", none, none, none⟩, ⟨"b", none, none, none⟩]

/-- C5: duplicate detection returns exactly the pairs `(i, j)` with `i < j`
whose pairwise similarity reaches the threshold, carrying that similarity;
and on the corpus `["a", "a", "b"]` with threshold `0.95` it returns exactly
`[(0, 1, 1.0)]`. -/
theorem detectDuplicates_pairs (items : List QCItem) (threshold : ℝ)
    (i j : Nat) (v : ℝ) :
    ((i, j, v) ∈ detectDuplicates items threshold ↔
      (i < j ∧ j < items.length ∧
       threshold ≤ simAt (items.map (fun it => it.text)) i j ∧
       v = simAt (items.map (fun it => it.text)) i j)) ∧
    detectDuplicates dupExampleItems (95/100) = [(0, 1, 1)] := by
  have hlenmap : (items.map (fun it => it.text)).length = items.length :=
    List.length_map _ _
  constructor
  · unfold detectDuplicates
    by_cases hn : (items.map (fun it => it.text)).length < 2
    · rw [if_pos hn]
      rw [hlenmap] at hn
      simp only [List.not_mem_nil, false_iff]
      rintro ⟨hij, hjlen, -, -⟩
      omega
    · rw [if_neg hn]
      simp only [List.mem_flatMap, List.mem_filterMap, List.mem_range, List.mem_range',
        Option.ite_none_right_eq_some, Option.some.injEq, Prod.mk.injEq]
      constructor
      · rintro ⟨i2, hi2, j2, ⟨t, ht, rfl⟩, hsim, rfl, rfl, rfl⟩
        rw [hlenmap] at hi2 ht
        exact ⟨by omega, by omega, hsim, rfl⟩
      · rintro ⟨hij, hjlen, hsim, hv⟩
        refine ⟨i, ?_, j, ⟨j - (i + 1), ?_, ?_⟩, hsim, rfl, rfl, hv.symm⟩
        · rw [hlenmap]
          omega
        · rw [hlenmap]
          omega
        · omega
  · have ha : cosineSim "a" "a" = 1 := cosineSim_self "a"
    have hd : dotTexts "a" "b" = 0 := by
      have h1 : tokens "a" = [['a']] := rfl
      have h2 : tokenCount "b" ['a'] = 0 := rfl
      unfold dotTexts
      rw [h1]
      simp [h2]
    have hb : cosineSim "a" "b" = 0 := by
      unfold cosineSim
      rw [hd]
      simp
    unfold detectDuplicates
    rw [if_neg (by simp [dupExampleItems])]
    have htexts : dupExampleItems.map (fun it => it.text) = ["a", "a", "b"] := rfl
    rw [htexts]
    have hs01 : simAt ["a", "a", "b"] 0 1 = 1 := by simp [simAt, ha]
    have hs02 : simAt ["a", "a", "b"] 0 2 = 0 := by simp [simAt, hb]
    have hs12 : simAt ["a", "a", "b"] 1 2 = 0 := by simp [simAt, hb]
    have hr3 : List.range (3 : Nat) = [0, 1, 2] := rfl
    show (List.range (["a", "a", "b"] : List String).length).flatMap _ = _
    have hlen3 : (["a", "a", "b"] : List String).length = 3 := rfl
    rw [hlen3, hr3]
    have hrp1 : List.range' (0 + 1) (3 - (0 + 1)) = [1, 2] := rfl
    have hrp2 : List.range' (1 + 1) (3 - (1 + 1)) = [2] := rfl
    have hrp3 : List.range' (2 + 1) (3 - (2 + 1)) = ([] : List Nat) := rfl
    have hc1 : (95/100 : ℝ) ≤ simAt ["a", "a", "b"] 0 1 := by rw [hs01]; norm_num
    have hc2 : ¬((95/100 : ℝ) ≤ simAt ["a", "a", "b"] 0 2) := by rw [hs02]; norm_num
    have hc3 : ¬((95/100 : ℝ) ≤ simAt ["a", "a", "b"] 1 2) := by rw [hs12]; norm_num
    simp only [List.flatMap_cons, List.flatMap_nil, hrp1, hrp2, hrp3,
      List.filterMap_cons, List.filterMap_nil, if_pos hc1, if_neg hc2, if_neg hc3,
      hs01, List.append_nil, List.nil_append]
    norm_num

/-- `item.get("domain_id") or item.get("label", "unknown")` (line 491):
Python `or` falls through on a missing key or a falsy (empty) string. -/
def itemDomainKey (it : QCItem) : String :=
  match it.domain_id with
  | some d => if d = "" then it.label.getD "unknown" else d
  | none => it.label.getD "unknown"

/-- `np.mean` over a list of reals (0 for the empty list, unreached here). -/
noncomputable def listMean (l : List ℝ) : ℝ := l.sum / l.length

/-- `np.std`: the population standard deviation. -/
noncomputable def listStd (l : List ℝ) : ℝ :=
  Real.sqrt ((l.map (fun x => (x - listMean l) ^ 2)).sum / l.length)

/-- `duplicate_rate = len(duplicates) / len(items)` (line 484). -/
noncomputable def corpusDuplicateRate (items : List QCItem) : ℝ :=
  (detectDuplicates items (95/100)).length / items.length

/-- `Counter(domains)` of line 492, in insertion order. -/
def corpusDomainCounts (items : List QCItem) : List (String × Nat) :=
  countVotes (items.map itemDomainKey)

/-- `cv = std_count / mean_count if mean_count > 0 else 0.0` (line 498). -/
noncomputable def corpusCV (items : List QCItem) : ℝ :=
  let counts : List ℝ := (corpusDomainCounts items).map (fun p => (p.2 : ℝ))
  if 0 < listMean counts then listStd counts / listMean counts else 0

/-- `avg_confidence` (lines 514-515): mean over the items carrying a
confidence field, 1.0 when none does. -/
noncomputable def corpusAvgConfidence (items : List QCItem) : ℝ :=
  let confs := items.filterMap (fun it => it.confidence)
  if confs.isEmpty then 1 else listMean confs

/-- The issue strings of `compute_dataset_quality_score`
(lines 478, 487, 501, 508, 511), as constructors. -/
inductive CorpusIssue where
  | emptyDataset
  | highDuplicateRate (rate : ℝ)
  | highDomainImbalance (cv : ℝ)
  | textsTooShort (avg : ℝ)
  | textsTooLong (avg : ℝ)

/-- The fields the non-empty branch of `compute_dataset_quality_score`
returns besides `quality_score` and `issues` (lines 527-537). -/
structure CorpusQualityDetails where
  total_samples : Nat
  duplicate_rate : ℝ
  duplicates_found : Nat
  domain_balance_cv : ℝ
  domain_distribution : List (String × Nat)
  avg_text_length : ℝ
  avg_confidence : ℝ

/-- The dict returned by `compute_dataset_quality_score`: the empty-dataset
branch (line 478) carries only the score and the single issue, so the other
keys are an `Option`al details record. -/
structure CorpusQualityReport where
  quality_score : ℝ
  issues : List CorpusIssue
  details : Option CorpusQualityDetails

/-- Embeds `QualityControl.compute_dataset_quality_score` (lines 466-537):
the `Empty dataset` early return, duplicate rate, domain-balance coefficient
of variation, average text length, average confidence, the three penalties
and the final clamp to `[0, 1]`. -/
noncomputable def computeDatasetQualityScore (items : List QCItem) : CorpusQualityReport :=
  if items.isEmpty then
    { quality_score := 0, issues := [CorpusIssue.emptyDataset], details := none }
  else
    let duplicates := detectDuplicates items (95/100)
    let duplicateRate := corpusDuplicateRate items
    let issues1 : List CorpusIssue :=
      if (5/100 : ℝ) < duplicateRate then [CorpusIssue.highDuplicateRate duplicateRate]
      else []
    let cv := corpusCV items
    let issues2 := issues1 ++
      (if (1 : ℝ) < cv then [CorpusIssue.highDomainImbalance cv] else [])
    let avgLength := listMean (items.map (fun it => (it.text.length : ℝ)))
    let issues3 := issues2 ++
      (if avgLength < 10 then [CorpusIssue.textsTooShort avgLength] else []) ++
      (if (500 : ℝ) < avgLength then [CorpusIssue.textsTooLong avgLength] else [])
    let avgConfidence := corpusAvgConfidence items
    let score0 : ℝ := 1 - duplicateRate * (3/10) - min (cv * (2/10)) (3/10)
      - (1 - avgConfidence) * (2/10)
    { quality_score := max 0 (min 1 score0)
      issues := issues3
      details := some
        { total_samples := items.length
          duplicate_rate := duplicateRate
          duplicates_found := duplicates.length
          domain_balance_cv := cv
          domain_distribution := corpusDomainCounts items
          avg_text_length := avgLength
          avg_confidence := avgConfidence } }

/-- C8: for a non-empty item list the quality score is exactly
`clamp(1 − 0.3·duplicate_rate − min(0.2·cv, 0.3) − 0.2·(1 − avg_confidence),
0, 1)`, hence always within `[0, 1]`, with `avg_confidence` defaulting to 1
when no item carries a confidence field. -/
theorem datasetQualityScore_formula (items : List QCItem) (h : items ≠ []) :
    (computeDatasetQualityScore items).quality_score =
      max 0 (min 1 (1 - corpusDuplicateRate items * (3/10)
        - min (corpusCV items * (2/10)) (3/10)
        - (1 - corpusAvgConfidence items) * (2/10))) ∧
    0 ≤ (computeDatasetQualityScore items).quality_score ∧
    (computeDatasetQualityScore items).quality_score ≤ 1 ∧
    ((∀ it ∈ items, it.confidence = none) → corpusAvgConfidence items = 1) := by
  have hne : items.isEmpty = false := by
    cases items
    · exact absurd rfl h
    · rfl
  have hscore : (computeDatasetQualityScore items).quality_score =
      max 0 (min 1 (1 - corpusDuplicateRate items * (3/10)
        - min (corpusCV items * (2/10)) (3/10)
        - (1 - corpusAvgConfidence items) * (2/10))) := by
    simp [computeDatasetQualityScore, hne]
  refine ⟨hscore, ?_, ?_, ?_⟩
  · rw [hscore]
    exact le_max_left 0 _
  · rw [hscore]
    apply max_le (by norm_num)
    exact le_trans (min_le_left _ _) (by norm_num)
  · intro hnone
    unfold corpusAvgConfidence
    rw [List.filterMap_eq_nil_iff.mpr (fun a ha => hnone a ha)]
    rfl

/-- C8, witness: a one-element corpus without a confidence field. -/
theorem datasetQualityScore_formula_witness :
    (computeDatasetQualityScore [⟨"hello", none, none, none⟩]).quality_score =
      max 0 (min 1 (1 - corpusDuplicateRate [⟨"hello", none, none, none⟩] * (3/10)
        - min (corpusCV [⟨"hello", none, none, none⟩] * (2/10)) (3/10)
        - (1 - corpusAvgConfidence [⟨"hello", none, none, none⟩]) * (2/10))) ∧
    0 ≤ (computeDatasetQualityScore [⟨"hello", none, none, none⟩]).quality_score ∧
    (computeDatasetQualityScore [⟨"hello", none, none, none⟩]).quality_score ≤ 1 ∧
    ((∀ it ∈ ([⟨"hello", none, none, none⟩] : List QCItem), it.confidence = none) →
      corpusAvgConfidence [⟨"hello", none, none, none⟩] = 1) :=
  datasetQualityScore_formula [⟨"hello", none, none, none⟩] (by simp)

/-- C10: the empty item list returns normally with quality score `0.0` and
the single issue `"Empty dataset"`; none of the divisions of the non-empty
branch is reached (the details record is absent, as in the returned dict). -/
theorem datasetQualityScore_empty :
    computeDatasetQualityScore [] =
      { quality_score := 0, issues := [CorpusIssue.emptyDataset], details := none } := rfl
